import Mathlib

/-!
# Verification of the claude-code-leaderboard telemetry pipeline

Shallow embedding, in Lean 4, of the core data model and operations of the
usage-telemetry collector: entry parsing and interaction-id derivation,
the submission ledger with retention pruning, the scan modes, the batch
planner, the retrying upload executor and the reconciliation flow.

Each definition is translated from one specific JavaScript function of the
repository; the file, function and line range are named in the doc comment.
JavaScript truthiness on strings ("" is falsy) is modelled explicitly;
absent or non-numeric JSON fields are `Option`; functions that may throw
are embedded as functions returning `Except` or as explicit outcome sums.
-/

namespace Leaderboard

/-! ## Data model

`UsageRecord` is the normalized record produced by the entry parsers
(`parseUsageFromLine` in its several variants).  The raw shapes below model
the JSON object a log line parses to: a field of type `Option _` is `none`
when the field is absent or not of the expected runtime type.
-/

/-- Token counts of one usage record (`tokens` object built by
`parseUsageFromLine`). -/
structure TokenCounts where
  input : Int
  output : Int
  cache_creation : Int
  cache_read : Int
  deriving Repr, DecidableEq

/-- A normalized usage record as produced by the parsers:
`{timestamp, tokens, model, interaction_id}`. -/
structure UsageRecord where
  timestamp : String
  tokens : TokenCounts
  model : String
  interaction_id : Option String
  deriving Repr, DecidableEq

/-- The nested `message.usage` block of a raw log line.  A field is `some`
exactly when it is present and is a number (`typeof x === 'number'`). -/
structure RawUsage where
  input_tokens : Option Int
  output_tokens : Option Int
  cache_creation_input_tokens : Option Int
  cache_read_input_tokens : Option Int
  deriving Repr, DecidableEq

/-- The nested `message` object of a raw log line. -/
structure RawMessage where
  id : Option String
  model : Option String
  usage : Option RawUsage
  deriving Repr, DecidableEq

/-- A raw log line after `JSON.parse`: the fields the parsers read. -/
structure RawData where
  timestamp : Option String
  message : Option RawMessage
  requestId : Option String
  deriving Repr, DecidableEq

/-- JavaScript truthiness of a possibly-absent string: `undefined`, `null`
and `""` are falsy, every other string is truthy. -/
def strTruthy : Option String → Bool
  | none => false
  | some s => s ≠ ""

/-- Truthy value of `data.message?.id`. -/
def msgId (data : RawData) : Option String :=
  match data.message with
  | none => none
  | some m => m.id

/-- `validateUsageData` (src/src/auth/tokens.js:644-659, identically
src/hooks/count_tokens.js:23-37): the line must be an object with a truthy
`timestamp`, an object `message` holding an object `usage`, and numeric
`input_tokens` and `output_tokens`.  The argument is `none` when the line
did not parse as JSON. -/
def validateUsageData : Option RawData → Bool
  | none => false
  | some data =>
    strTruthy data.timestamp &&
    match data.message with
    | none => false
    | some m =>
      match m.usage with
      | none => false
      | some u => u.input_tokens.isSome && u.output_tokens.isSome

/-- `createUniqueHash` (src/src/auth/tokens.js:683-694): requires BOTH
`data.message.id` and `data.requestId` to be truthy and returns the
composite key `` `${messageId}:${requestId}` ``; otherwise `null`. -/
def createUniqueHash_tokens (data : RawData) : Option String :=
  match data.requestId, msgId data with
  | some rid, some mid =>
    if rid ≠ "" ∧ mid ≠ "" then some (mid ++ ":" ++ rid) else none
  | _, _ => none

/-- `createUniqueHash` (src/hooks/count_tokens.js:96-100, identically
src/unnamed/part_005:93-98 and part_006:96-100):
`requestId || messageId || null` — either identifier alone suffices. -/
def createUniqueHash_hook (data : RawData) : Option String :=
  if strTruthy data.requestId then data.requestId
  else if strTruthy (msgId data) then msgId data
  else none

/-- Shared body of the `parseUsageFromLine` variants: given the validated
data and the derived interaction id, build the `UsageRecord`.  Numeric
cache fields default to 0 (`|| 0`, and a present 0 stays 0); `model`
defaults to `"unknown"` when absent or `""`. -/
def buildUsageRecord (data : RawData) (m : RawMessage) (u : RawUsage)
    (interactionId : Option String) : UsageRecord where
  timestamp := data.timestamp.getD ""
  tokens :=
    { input := u.input_tokens.getD 0
      output := u.output_tokens.getD 0
      cache_creation := u.cache_creation_input_tokens.getD 0
      cache_read := u.cache_read_input_tokens.getD 0 }
  model := if strTruthy m.model then m.model.getD "" else "unknown"
  interaction_id := interactionId

/-- `parseUsageFromLine` (src/src/auth/tokens.js:696-722): returns a
normalized record or `null`; derives the id with the both-required
`createUniqueHash` of tokens.js.  The argument is the `JSON.parse` result
of the line (`none` when parsing threw). -/
def parseUsageFromLine_tokens (line : Option RawData) : Option UsageRecord :=
  match line with
  | none => none
  | some data =>
    if validateUsageData (some data) then
      match data.message with
      | some m =>
        match m.usage with
        | some u => some (buildUsageRecord data m u (createUniqueHash_tokens data))
        | none => none
      | none => none
    else none

/-- `parseUsageFromLine` (src/hooks/count_tokens.js:103-134, identically
src/unnamed/part_005 and part_006): same validation, but the id comes from
the either-identifier `createUniqueHash` of the hook. -/
def parseUsageFromLine_hook (line : Option RawData) : Option UsageRecord :=
  match line with
  | none => none
  | some data =>
    if validateUsageData (some data) then
      match data.message with
      | some m =>
        match m.usage with
        | some u => some (buildUsageRecord data m u (createUniqueHash_hook data))
        | none => none
      | none => none
    else none

/-- `parseUsageFromLine` (src/unnamed/part_004:31-60): same required-field
checks, but the dedup key is `interaction_hash`, a sha256 over
`` `${timestamp}${message?.id || ''}${requestId || ''}` `` — computed
unconditionally, so it is present (non-null) even when both upstream
identifiers are missing.  The hash function itself is irrelevant to every
claim and is passed as the parameter `sha256hex`. -/
def parseUsageFromLine_part004 (sha256hex : String → String)
    (line : Option RawData) : Option UsageRecord :=
  match line with
  | none => none
  | some data =>
    match data.timestamp, data.message with
    | some ts, some m =>
      if ts = "" then none else
      match m.usage with
      | some u =>
        if u.input_tokens.isSome ∧ u.output_tokens.isSome then
          some (buildUsageRecord data m u
            (some (sha256hex (ts ++ (msgId data).getD "" ++ data.requestId.getD ""))))
        else none
      | none => none
    | _, _ => none

/-! ## Submission Ledger

`loadTracking` (src/hooks/count_tokens.js:316-338, identically
src/unnamed/part_006:240-263) reads `~/.claude/leaderboard_submitted.json`,
a JSON map `interaction_id → ISO timestamp`, and drops entries whose
timestamp is not strictly newer than the cutoff `now - 30 days`
(string comparison `timestamp > cutoffTimestamp`).

ISO-8601 UTC timestamps in the fixed `toISOString` format compare
lexicographically exactly in chronological order, so the embedding uses
the chronological value directly: a timestamp is its epoch-milliseconds
value (`Int`), and the JavaScript string comparison becomes `<` on `Int`.
A missing or unparsable backing file (`readFile`/`JSON.parse` throwing)
is the `none` input. -/

/-- `TRACKING_RETENTION_DAYS` (src/hooks/count_tokens.js:20). -/
def TRACKING_RETENTION_DAYS : Int := 30

/-- Milliseconds in one day. -/
def dayMs : Int := 86400000

/-- The cutoff `now - 30 days` computed by `loadTracking`
(count_tokens.js:322-324). -/
def trackingCutoff (now : Int) : Int := now - TRACKING_RETENTION_DAYS * dayMs

/-- `loadTracking` (src/hooks/count_tokens.js:316-338): the parsed backing
file (`none` when absent/corrupt) filtered to entries with
`timestamp > cutoffTimestamp`. -/
def loadTracking (file : Option (List (String × Int))) (now : Int) :
    List (String × Int) :=
  match file with
  | none => []
  | some entries => entries.filter (fun e => trackingCutoff now < e.2)

/-! ## Upload Executor — `uploadBatch` (src/src/utils/bulk-uploader.js:24-91)

One attempt issues the request and settles its promise from the response:
a 2xx resolves with counts taken from the JSON body (with JavaScript `||`
fallbacks), any other status or a network error rejects.  The `catch`
retries up to `MAX_RETRIES = 3` further attempts with delay
`1000 * 2^retryCount` ms, then returns `{processed: 0, failed:
batch.length}`.  The environment is a function `attempts` giving the
network outcome of each attempt. -/

/-- The JSON body of an upload response, restricted to the two fields the
code reads.  `none` models an absent or non-numeric field. -/
structure ParsedBody where
  processed : Option Nat
  failed : Option Nat
  deriving Repr, DecidableEq

/-- An HTTP response: status code, and the `JSON.parse` result of its body
(`none` when the body is unparsable). -/
structure HttpResponse where
  statusCode : Nat
  body : Option ParsedBody
  deriving Repr, DecidableEq

/-- Outcome of one network attempt: a response, or a network error
(connection error or timeout). -/
inductive NetOutcome where
  | response (r : HttpResponse)
  | netError
  deriving Repr, DecidableEq

/-- Per-batch result `{processed, failed}`. -/
structure UploadResult where
  processed : Nat
  failed : Nat
  deriving Repr, DecidableEq

/-- `MAX_RETRIES` (bulk-uploader.js:25). -/
def MAX_RETRIES : Nat := 3

/-- `RETRY_DELAY * Math.pow(2, retryCount)` (bulk-uploader.js:83): the
backoff delay in ms before retry number `retryCount + 1`. -/
def retryDelayMs (retryCount : Nat) : Nat := 1000 * 2 ^ retryCount

/-- JavaScript `x || d` for a possibly-absent number: `0` is falsy, so a
present `0` is replaced by the default as well. -/
def jsOrNat (v : Option Nat) (d : Nat) : Nat :=
  match v with
  | some n => if n = 0 then d else n
  | none => d

/-- Whether a response status is in the 2xx success range. -/
def is2xx (status : Nat) : Bool := 200 ≤ status && status < 300

/-- The `UploadResult` a single 2xx response resolves to
(bulk-uploader.js:55-65): body parsed → `{processed: result.processed ||
batch.length, failed: result.failed || 0}`; body unparsable →
`{processed: batch.length, failed: 0}`. -/
def uploadSuccessResult (batchLen : Nat) (r : HttpResponse) : UploadResult :=
  match r.body with
  | some pb => ⟨jsOrNat pb.processed batchLen, (pb.failed.getD 0)⟩
  | none => ⟨batchLen, 0⟩

/-- Whether one attempt fails (rejects): network error, or any non-2xx
response (bulk-uploader.js:66-68,72). -/
def attemptFails : NetOutcome → Bool
  | .netError => true
  | .response r => !is2xx r.statusCode

/-- `uploadBatch` (bulk-uploader.js:24-91) from a given `retryCount`:
recursion mirrors the retry-via-self-invocation of the source. -/
def uploadBatchFrom (batchLen : Nat) (attempts : Nat → NetOutcome)
    (retryCount : Nat) : UploadResult :=
  match h : attempts retryCount with
  | .response r =>
    if is2xx r.statusCode then uploadSuccessResult batchLen r
    else if hlt : retryCount < MAX_RETRIES then
      uploadBatchFrom batchLen attempts (retryCount + 1)
    else ⟨0, batchLen⟩
  | .netError =>
    if hlt : retryCount < MAX_RETRIES then
      uploadBatchFrom batchLen attempts (retryCount + 1)
    else ⟨0, batchLen⟩
  termination_by MAX_RETRIES + 1 - retryCount
  decreasing_by all_goals omega

/-- `uploadBatch` as called by `uploadShardedNdjson`: `retryCount = 0`. -/
def uploadBatch (batchLen : Nat) (attempts : Nat → NetOutcome) : UploadResult :=
  uploadBatchFrom batchLen attempts 0

/-! ## Single-entry delivery — `sendToAPI` (src/hooks/count_tokens.js:357-462)

A `for` loop of `maxRetries = 3` attempts.  Per attempt: a 2xx resolves
with the parsed body (or `{status:'ok'}` when unparsable); a 409 resolves
with `{status:'duplicate'}`; a 5xx rejects retryably; any other status
rejects and the catch block rethrows immediately (client errors are not
retried); a network error or timeout rejects retryably.  After the last
attempt the last error is thrown. -/

/-- What a successful `sendToAPI` resolves to. -/
inductive ApiSuccess where
  | json (body : ParsedBody)
  | okRaw
  | duplicate
  deriving Repr, DecidableEq

/-- The error `sendToAPI` ultimately throws. -/
inductive ApiError where
  | serverError (status : Nat)
  | httpError (status : Nat)
  | network
  deriving Repr, DecidableEq

/-- `sendToAPI` from attempt number `attempt` (0-based) out of `maxRetries`
total attempts (count_tokens.js:360-461). -/
def sendToAPIFrom (attempts : Nat → NetOutcome) (maxRetries : Nat)
    (attempt : Nat) : Except ApiError ApiSuccess :=
  match attempts attempt with
  | .response r =>
    if is2xx r.statusCode then
      .ok (match r.body with
           | some pb => .json pb
           | none => .okRaw)
    else if r.statusCode = 409 then .ok .duplicate
    else if 500 ≤ r.statusCode then
      if h : attempt + 1 < maxRetries then
        sendToAPIFrom attempts maxRetries (attempt + 1)
      else .error (.serverError r.statusCode)
    else .error (.httpError r.statusCode)
  | .netError =>
    if h : attempt + 1 < maxRetries then
      sendToAPIFrom attempts maxRetries (attempt + 1)
    else .error .network
  termination_by maxRetries - attempt
  decreasing_by all_goals omega

/-- `sendToAPI` with its default `maxRetries = 3`, starting at attempt 0. -/
def sendToAPI (attempts : Nat → NetOutcome) : Except ApiError ApiSuccess :=
  sendToAPIFrom attempts 3 0

/-! ## The hook's submission step — `main` (src/hooks/count_tokens.js:548-605)

The ledger here is the in-memory map `trackingData : interaction_id → ISO
timestamp string`.  After `sendToAPI` resolves, and only then, the entry is
recorded and `saveTracking` is called; the catch block performs no ledger
write.  `part_006:416-451` has the same structure. -/

/-- JS object assignment `m[k] = v` on a string-keyed map modelled as an
association list. -/
def setKey (m : List (String × String)) (k v : String) : List (String × String) :=
  (k, v) :: m.filter (fun e => e.1 ≠ k)

/-- Association-list lookup, `m[k]`. -/
def lookupKey (m : List (String × String)) (k : String) : Option String :=
  (m.find? (fun e => e.1 = k)).map (·.2)

/-- `usageData.timestamp || new Date().toISOString()`
(count_tokens.js:596). -/
def tsOrNow (ts nowIso : String) : String := if ts = "" then nowIso else ts

/-- Result of one submission step: the ledger afterwards and whether
`saveTracking` was invoked. -/
structure SubmitStepResult where
  tracking : List (String × String)
  saveCalled : Bool
  deriving Repr, DecidableEq

/-- The try/catch around `sendToAPI` in `main`
(count_tokens.js:583-605): on success the interaction is recorded (when it
has an id) and `saveTracking` runs; on failure nothing is written. -/
def mainSubmitStep (usageData : UsageRecord) (tracking : List (String × String))
    (nowIso : String) (apiOutcome : Except ApiError ApiSuccess) : SubmitStepResult :=
  match apiOutcome with
  | .ok _ =>
    match usageData.interaction_id with
    | some id => ⟨setKey tracking id (tsOrNow usageData.timestamp nowIso), true⟩
    | none => ⟨tracking, false⟩
  | .error _ => ⟨tracking, false⟩

/-- The pre-submission duplicate check (count_tokens.js:552-556): skip when
the record's id is truthy and already in the loaded ledger. -/
def alreadySubmitted (usageData : UsageRecord) (tracking : List (String × String)) : Bool :=
  match usageData.interaction_id with
  | some id => id ≠ "" && strTruthy (lookupKey tracking id)
  | none => false

/-- The backlog loop (count_tokens.js:615-641): each entry is sent; only a
successful send records the entry into `trackingData`; a failed send
continues with the next entry. `outcomes i` is the `sendToAPI` outcome of
the i-th backlog entry. -/
def processBacklog (outcomes : Nat → Except ApiError ApiSuccess) (nowIso : String) :
    List UsageRecord → Nat → List (String × String) → List (String × String)
  | [], _, tracking => tracking
  | e :: es, i, tracking =>
    match outcomes i with
    | .ok _ =>
      match e.interaction_id with
      | some id =>
        processBacklog outcomes nowIso es (i + 1) (setKey tracking id (tsOrNow e.timestamp nowIso))
      | none => processBacklog outcomes nowIso es (i + 1) tracking
    | .error _ => processBacklog outcomes nowIso es (i + 1) tracking

/-! ## Scan modes

Three line-level scan loops, each over the `JSON.parse` results of the
lines it visits (`none` = unparsable line). -/

/-- The line loop of `scanJsonlFile` (src/src/auth/tokens.js:724-753),
full-history mode: in-pass dedup via the `seenInteractions` set, applied
only to records whose `interaction_id` is non-null; null-id records are
always pushed.  Returns the kept records and the updated set. -/
def scanLines : List (Option RawData) → List String →
    List UsageRecord × List String
  | [], seen => ([], seen)
  | l :: ls, seen =>
    match parseUsageFromLine_tokens l with
    | none => scanLines ls seen
    | some u =>
      match u.interaction_id with
      | some h =>
        if h ∈ seen then scanLines ls seen
        else
          let r := scanLines ls (h :: seen)
          (u :: r.1, r.2)
      | none =>
        let r := scanLines ls seen
        (u :: r.1, r.2)

/-- The line loop of `getLatestTokenUsage`
(src/hooks/count_tokens.js:265-294), latest mode: over newest-first lines,
returns the first parsed record that is not a truthy-id duplicate of
`processedHashes`; a record with null id is returned immediately. -/
def latestLine_hook (processed : List String) :
    List (Option RawData) → Option UsageRecord
  | [] => none
  | l :: ls =>
    match parseUsageFromLine_hook l with
    | none => latestLine_hook processed ls
    | some u =>
      match u.interaction_id with
      | some id =>
        if id ≠ "" ∧ id ∈ processed then latestLine_hook processed ls
        else some u
      | none => some u

/-- The line loop of `getLatestTokenUsage` (src/unnamed/part_006:195-218),
latest-unsubmitted mode: skips any record whose `interaction_id` is falsy
(`!usageData.interaction_id`), and any whose id is already in the loaded
ledger; returns the first remaining record. -/
def latestUnsubmittedLine_part006 (tracking : List (String × String)) :
    List (Option RawData) → Option UsageRecord
  | [] => none
  | l :: ls =>
    match parseUsageFromLine_hook l with
    | none => latestUnsubmittedLine_part006 tracking ls
    | some u =>
      match u.interaction_id with
      | some id =>
        if id = "" then latestUnsubmittedLine_part006 tracking ls
        else if strTruthy (lookupKey tracking id) then
          latestUnsubmittedLine_part006 tracking ls
        else some u
      | none => latestUnsubmittedLine_part006 tracking ls

/-! ## Batch Planner — `uploadShardedNdjson` (src/src/utils/bulk-uploader.js:117-175)

The function receives the `JSON.parse` results of the NDJSON lines; an
entry without a truthy `timestamp` is skipped.  Entries are grouped by the
first 10 characters of the timestamp (JS object keys, insertion order),
the dates are sorted ascending (`Object.keys(..).sort()`, lexicographic on
`YYYY-MM-DD`), and the loop accumulates whole dates into batches under the
`BATCH_SIZE = 5000` ceiling. -/

/-- An entry of the bulk-import payload, as far as the planner reads it:
its `timestamp` field (possibly absent) and the opaque remainder of the
JSON object. -/
structure Entry where
  timestamp : Option String
  rest : String
  deriving Repr, DecidableEq

/-- `entry.timestamp.substring(0, 10)` (bulk-uploader.js:122). -/
def entryDate (e : Entry) : String := (e.timestamp.getD "").take 10

/-- `if (!entry.timestamp) continue` (bulk-uploader.js:120). -/
def hasTimestamp (e : Entry) : Bool := strTruthy e.timestamp

/-- `BATCH_SIZE` (bulk-uploader.js:132). -/
def BATCH_SIZE : Nat := 5000

/-- `MAX_CONCURRENT` (bulk-uploader.js:133). -/
def MAX_CONCURRENT : Nat := 3

/-- First-occurrence deduplication with the set of values already seen:
the loop a JS `Set` insertion performs. -/
def firstDedupAux (seen : List String) : List String → List String
  | [] => []
  | d :: ds =>
    if d ∈ seen then firstDedupAux seen ds
    else d :: firstDedupAux (d :: seen) ds

/-- First-occurrence deduplication: `[...new Set(xs)]`. -/
def firstDedup (l : List String) : List String := firstDedupAux [] l

/-- One planned batch: the records, the 1-based sequence number, and
`[...new Set(batch.map(e => e.timestamp.substring(0,10)))]`
(bulk-uploader.js:146-174). -/
structure PlannedBatch where
  batch : List Entry
  batchNumber : Nat
  dates : List String
  deriving Repr, DecidableEq

/-- The `dates` tag computed when a batch is closed. -/
def coveredDates (b : List Entry) : List String := firstDedup (b.map entryDate)

/-- The planner loop over the sorted date groups
(bulk-uploader.js:141-175), carrying `currentBatch` and `batchNumber`;
the trailing flush of a nonempty `currentBatch` is the `[]` case.  The
source's pre-add flush followed by the post-add size check is unrolled in
the first branch. -/
def planBatchesAux : List (String × List Entry) → List Entry → Nat → List PlannedBatch
  | [], current, num =>
    if current.isEmpty then [] else [⟨current, num, coveredDates current⟩]
  | (_, des) :: rest, current, num =>
    if 0 < current.length ∧ BATCH_SIZE < current.length + des.length then
      ⟨current, num, coveredDates current⟩ ::
        (if BATCH_SIZE ≤ des.length then
          ⟨des, num + 1, coveredDates des⟩ :: planBatchesAux rest [] (num + 2)
        else planBatchesAux rest des (num + 1))
    else
      let cur2 := current ++ des
      if BATCH_SIZE ≤ cur2.length then
        ⟨cur2, num, coveredDates cur2⟩ :: planBatchesAux rest [] (num + 1)
      else planBatchesAux rest cur2 num

/-- Lexicographic comparison of character lists by code point — the order
JavaScript's default `Array.prototype.sort` applies to strings (UTF-16
code-unit order, which agrees with code-point order on the ASCII date
keys). -/
def charListLe : List Char → List Char → Bool
  | [], _ => true
  | _ :: _, [] => false
  | a :: as, b :: bs =>
    if a.toNat < b.toNat then true
    else if b.toNat < a.toNat then false
    else charListLe as bs

/-- JS default string comparison, as a relation on `String`. -/
def jsStrLe (a b : String) : Prop := charListLe a.data b.data = true

instance : DecidableRel jsStrLe :=
  fun a b => instDecidableEqBool (charListLe a.data b.data) true

/-- `Object.keys(entriesByDate).sort()` (bulk-uploader.js:139): the
distinct dates of the timestamped entries, ascending. -/
def sortedDates (valid : List Entry) : List String :=
  List.insertionSort jsStrLe (firstDedup (valid.map entryDate))

/-- `entriesByDate` in sorted key order: each date with its entries in
encounter order (bulk-uploader.js:118-127,139). -/
def entriesByDate (entries : List Entry) : List (String × List Entry) :=
  let valid := entries.filter hasTimestamp
  (sortedDates valid).map (fun d => (d, valid.filter (fun e => entryDate e = d)))

/-- The whole Batch Planner (bulk-uploader.js:117-175). -/
def planBatches (entries : List Entry) : List PlannedBatch :=
  planBatchesAux (entriesByDate entries) [] 1

/-! ## Upload dispatch — `uploadShardedNdjson` (bulk-uploader.js:179-218)

Batches are dispatched in windows of `MAX_CONCURRENT`; the loop awaits
`Promise.allSettled` of a whole window before opening the next, and
appends each window's results in order.  `uploadBatch` never rejects, so
every batch contributes exactly one result.  `env i` is the attempt
environment of the i-th batch. -/

/-- The dispatch loop from a given absolute batch index. -/
def runBatchesAux (env : Nat → Nat → NetOutcome) (start : Nat) :
    List PlannedBatch → List UploadResult
  | [] => []
  | b :: bs =>
    ((b :: bs).take MAX_CONCURRENT).mapIdx
      (fun j w => uploadBatch w.batch.length (env (start + j))) ++
    runBatchesAux env (start + MAX_CONCURRENT) ((b :: bs).drop MAX_CONCURRENT)
  termination_by l => l.length
  decreasing_by
    simp only [List.length_drop, List.length_cons, MAX_CONCURRENT]
    omega

/-- All batch results of one run, in order. -/
def runBatches (env : Nat → Nat → NetOutcome) (batches : List PlannedBatch) :
    List UploadResult :=
  runBatchesAux env 0 batches

/-- The run-level totals (bulk-uploader.js:207-218). -/
def runTotals (results : List UploadResult) : UploadResult :=
  ⟨(results.map (·.processed)).sum, (results.map (·.failed)).sum⟩

/-! ## Reconciliation — `checkVersionWithServer` and `performSilentReset`
(src/src/utils/auto-reset.js:23-58, 112-196)

The network is modelled as the outcomes the `fetch` calls would produce.
`performSilentReset` is embedded as a pure function of those outcomes that
additionally reports which remote calls the control flow reached. -/

/-- OAuth token pair returned by `getValidAccessToken`. -/
structure AuthTokens where
  oauth_token : String
  oauth_token_secret : String
  deriving Repr, DecidableEq

/-- The version-check result object `{needs_migration, reason?}`. -/
structure VersionCheckResult where
  needs_migration : Bool
  reason : Option String
  deriving Repr, DecidableEq

/-- Outcome of the version-check `fetch`: a response with status and the
`response.json()` result (`none` when the body is not valid JSON), or a
network error. -/
inductive VcOutcome where
  | response (status : Nat) (json : Option VersionCheckResult)
  | netError
  deriving Repr, DecidableEq

/-- `checkVersionWithServer` (auto-reset.js:23-58): `response.ok` (2xx)
returns the parsed body; 404 → `{needs_migration: false, reason:
'user_not_found'}`; any other status → `{..., reason:
'version_check_failed'}`; a thrown error (network, or a 2xx body that
fails to parse) → `{..., reason: 'version_check_error'}`. -/
def checkVersionWithServer : VcOutcome → VersionCheckResult
  | .response status json =>
    if is2xx status then
      match json with
      | some r => r
      | none => ⟨false, some "version_check_error"⟩
    else if status = 404 then ⟨false, some "user_not_found"⟩
    else ⟨false, some "version_check_failed"⟩
  | .netError => ⟨false, some "version_check_error"⟩

/-- Outcome of the reset `fetch` (`POST /api/user/reset`): a response with
status, whether its error text contains `'User not found'`, or a network
error. -/
inductive ResetOutcome where
  | response (status : Nat) (bodyHasUserNotFound : Bool)
  | netError
  deriving Repr, DecidableEq

/-- What `resetUserData` (auto-reset.js:63-90) produces for its caller:
2xx → the parsed result; 404 → `{skipped: true, reason: 'user_not_found'}`;
any other status or a network error → a thrown error. -/
inductive ResetCallResult where
  | ok
  | skippedUserNotFound
  | threw (msg : String)
  deriving Repr, DecidableEq

/-- `resetUserData` (auto-reset.js:63-90). -/
def resetUserData : ResetOutcome → ResetCallResult
  | .response status _ =>
    if is2xx status then .ok
    else if status = 404 then .skippedUserNotFound
    else .threw "Failed to reset user data"
  | .netError => .threw "fetch failed"

/-- Outcome of the `uploadShardedNdjson` call inside a resync: its result,
or a thrown error. -/
inductive UploadCallOutcome where
  | result (r : UploadResult)
  | threw (msg : String)
  deriving Repr, DecidableEq

/-- The environment of one `performSilentReset` run: the credential lookup
and each remote interaction's outcome. -/
structure SilentResetEnv where
  tokens : Option AuthTokens
  versionCheck : VcOutcome
  resetCall : ResetOutcome
  scanEntries : List UsageRecord
  upload : UploadCallOutcome
  deriving Repr, DecidableEq

/-- The structured result `performSilentReset` returns. -/
inductive SilentResetOutcome where
  | skipped (reason : String)
  | success (imported failed : Nat)
  | failed (error : String)
  deriving Repr, DecidableEq

/-- A `performSilentReset` run: its result plus which remote mutations the
control flow reached. -/
structure SilentResetRun where
  outcome : SilentResetOutcome
  resetCalled : Bool
  uploadCalled : Bool
  deriving Repr, DecidableEq

/-- `performSilentReset` (auto-reset.js:112-196). -/
def performSilentReset (env : SilentResetEnv) : SilentResetRun :=
  match env.tokens with
  | none => ⟨.skipped "not_authenticated", false, false⟩
  | some _ =>
    let vc := checkVersionWithServer env.versionCheck
    if vc.needs_migration = false then ⟨.skipped "already_up_to_date", false, false⟩
    else
      match resetUserData env.resetCall with
      | .skippedUserNotFound => ⟨.skipped "user_not_found", true, false⟩
      | .threw e => ⟨.failed e, true, false⟩
      | .ok =>
        if env.scanEntries.isEmpty then ⟨.success 0 0, true, false⟩
        else
          match env.upload with
          | .threw e => ⟨.failed e, true, true⟩
          | .result r => ⟨.success r.processed r.failed, true, true⟩

/-! ## Migration — `runMigration` (src/src/utils/constants.js:90-187)

The repository's `src/utils/migration.js` (imported by `bin/cli.js`)
appears in the sources as the document appended to `constants.js`; the
line references below are into that document. -/

/-- What the migration-flavoured `resetUserData` (constants.js:56-84)
produces: 2xx → ok; `404` with a body containing `'User not found'` →
`throw 'USER_NOT_FOUND'`; any other failure or network error → a thrown
error. -/
inductive MigResetResult where
  | ok
  | threwUserNotFound
  | threw (msg : String)
  deriving Repr, DecidableEq

/-- `resetUserData` as used by `runMigration` (constants.js:56-84). -/
def resetUserData_migration : ResetOutcome → MigResetResult
  | .response status unf =>
    if is2xx status then .ok
    else if status = 404 ∧ unf then .threwUserNotFound
    else .threw "Failed to reset user data"
  | .netError => .threw "fetch failed"

/-- The environment of one `runMigration` run. -/
structure MigrationEnv where
  alreadyMigrated : Bool
  isNewAuth : Bool
  tokens : Option AuthTokens
  resetCall : ResetOutcome
  scanEntries : List UsageRecord
  upload : UploadCallOutcome
  deriving Repr, DecidableEq

/-- The structured result `runMigration` returns. -/
inductive MigrationOutcome where
  | alreadyMigrated (newUser : Bool)
  | needsAuth
  | success (imported failed : Nat)
  | failed (error : String)
  deriving Repr, DecidableEq

/-- A `runMigration` run: its result plus whether `markMigrationComplete`
(the durable completion marker write, constants.js:46-51) was reached. -/
structure MigrationRun where
  outcome : MigrationOutcome
  markerWritten : Bool
  deriving Repr, DecidableEq

/-- `runMigration` (constants.js:90-187).  The completion marker is
written on the new-auth shortcut, after an empty scan, and after
`uploadShardedNdjson` returns — unconditionally on its `failed` count and
with no further version check; a thrown error skips the write. -/
def runMigration (env : MigrationEnv) : MigrationRun :=
  if env.alreadyMigrated then ⟨.alreadyMigrated false, false⟩
  else if env.isNewAuth then ⟨.alreadyMigrated true, true⟩
  else
    match env.tokens with
    | none => ⟨.failed "Not authenticated", false⟩
    | some _ =>
      match resetUserData_migration env.resetCall with
      | .threwUserNotFound => ⟨.needsAuth, false⟩
      | .threw e => ⟨.failed e, false⟩
      | .ok =>
        if env.scanEntries.isEmpty then ⟨.success 0 0, true⟩
        else
          match env.upload with
          | .threw e => ⟨.failed e, false⟩
          | .result r => ⟨.success r.processed r.failed, true⟩

/-! ## Claim theorems -/

/-- C4: for every load of the Submission Ledger at a fixed reference time
`now`, an entry timestamped 31 days prior is absent from the returned map,
an entry 29 days prior is retained, and an absent or unparsable backing
file yields the empty map rather than an error. -/
theorem C4_loadTracking_retention (now : Int) (m : List (String × Int))
    (id₁ id₂ : String)
    (_h31 : (id₁, now - 31 * dayMs) ∈ m) (h29 : (id₂, now - 29 * dayMs) ∈ m) :
    (id₁, now - 31 * dayMs) ∉ loadTracking (some m) now ∧
    (id₂, now - 29 * dayMs) ∈ loadTracking (some m) now ∧
    loadTracking none now = [] := by
  refine ⟨?_, ?_, rfl⟩
  · intro hmem
    have h := (List.mem_filter.mp hmem).2
    simp only [trackingCutoff, TRACKING_RETENTION_DAYS, dayMs, decide_eq_true_eq] at h
    omega
  · refine List.mem_filter.mpr ⟨h29, ?_⟩
    simp only [trackingCutoff, TRACKING_RETENTION_DAYS, dayMs, decide_eq_true_eq]
    omega

/-- Witness for C4 at `now = 0` with one entry 31 days old and one 29 days
old. -/
theorem C4_loadTracking_retention_witness :
    ("old", (0 : Int) - 31 * dayMs) ∉
      loadTracking (some [("old", 0 - 31 * dayMs), ("new", 0 - 29 * dayMs)]) 0 ∧
    ("new", (0 : Int) - 29 * dayMs) ∈
      loadTracking (some [("old", 0 - 31 * dayMs), ("new", 0 - 29 * dayMs)]) 0 ∧
    loadTracking none 0 = [] :=
  C4_loadTracking_retention 0 [("old", 0 - 31 * dayMs), ("new", 0 - 29 * dayMs)]
    "old" "new" (by simp) (by simp)

/-- C1: the Submission Ledger is written only after a confirmed successful
delivery of the entry it records; on any failed delivery the ledger is
left unchanged (and `saveTracking` is not called), so the same record is
retried on the next run.  Covers the main submission step and the backlog
loop of the hook. -/
theorem C1_ledger_only_on_success (usageData : UsageRecord)
    (tracking : List (String × String)) (nowIso : String) (e : ApiError)
    (o : Except ApiError ApiSuccess) (outcomes : Nat → Except ApiError ApiSuccess)
    (entries : List UsageRecord) (i : Nat)
    (hfail : ∀ j, ∃ err, outcomes j = .error err) :
    mainSubmitStep usageData tracking nowIso (.error e) = ⟨tracking, false⟩ ∧
    ((mainSubmitStep usageData tracking nowIso o).saveCalled = true →
      ∃ s, o = .ok s) ∧
    processBacklog outcomes nowIso entries i tracking = tracking := by
  refine ⟨rfl, ?_, ?_⟩
  · intro h
    cases o with
    | ok s => exact ⟨s, rfl⟩
    | error err => simp [mainSubmitStep] at h
  · induction entries generalizing i tracking with
    | nil => rfl
    | cons u us ih =>
      obtain ⟨err, herr⟩ := hfail i
      simp only [processBacklog, herr]
      exact ih _ _

/-- Witness for C1: a failing delivery of a concrete record leaves a
concrete ledger unchanged. -/
theorem C1_ledger_only_on_success_witness :
    mainSubmitStep ⟨"2025-01-01T00:00:00.000Z", ⟨1, 2, 0, 0⟩, "m", some "id1"⟩
        [("id0", "2024-12-31T00:00:00.000Z")] "2025-01-02T00:00:00.000Z"
        (.error .network) =
      ⟨[("id0", "2024-12-31T00:00:00.000Z")], false⟩ ∧
    ((mainSubmitStep ⟨"2025-01-01T00:00:00.000Z", ⟨1, 2, 0, 0⟩, "m", some "id1"⟩
        [("id0", "2024-12-31T00:00:00.000Z")] "2025-01-02T00:00:00.000Z"
        (.error .network)).saveCalled = true →
      ∃ s, (.error .network : Except ApiError ApiSuccess) = .ok s) ∧
    processBacklog (fun _ => .error .network) "2025-01-02T00:00:00.000Z"
        [⟨"2025-01-01T00:00:00.000Z", ⟨1, 2, 0, 0⟩, "m", some "id1"⟩] 0
        [("id0", "2024-12-31T00:00:00.000Z")] =
      [("id0", "2024-12-31T00:00:00.000Z")] :=
  C1_ledger_only_on_success _ _ _ .network _ _ _ 0 (fun _ => ⟨.network, rfl⟩)

/-- C10: for every 2xx upload response whose body parses as JSON, the
Upload Executor reports `processed = batch.length` whenever the body's
`processed` field is absent or 0 (`result.processed || batch.length`), so
a server-reported processed count of zero is never propagated. -/
theorem C10_falsy_processed_replaced (batchLen : Nat)
    (attempts : Nat → NetOutcome) (k : Nat) (r : HttpResponse) (pb : ParsedBody)
    (hresp : attempts k = .response r) (h2xx : is2xx r.statusCode = true)
    (hbody : r.body = some pb) (hp : pb.processed = none ∨ pb.processed = some 0) :
    uploadBatchFrom batchLen attempts k = ⟨batchLen, pb.failed.getD 0⟩ := by
  rw [uploadBatchFrom, hresp]
  simp only [h2xx, if_true, uploadSuccessResult, hbody]
  rcases hp with hp | hp <;> simp [jsOrNat, hp]

/-- Witness for C10: a 200 response with body `{processed: 0, failed: 0}`
for a 7-record batch reports `processed = 7`. -/
theorem C10_falsy_processed_replaced_witness :
    uploadBatchFrom 7 (fun _ => .response ⟨200, some ⟨some 0, some 0⟩⟩) 0 =
      ⟨7, 0⟩ :=
  C10_falsy_processed_replaced 7 (fun _ => .response ⟨200, some ⟨some 0, some 0⟩⟩)
    0 ⟨200, some ⟨some 0, some 0⟩⟩ ⟨some 0, some 0⟩ rfl (by decide) rfl (Or.inr rfl)

/-- A raw log line carrying a request identifier but no message
identifier, with a valid usage block. -/
def rawOnlyRequestId : RawData where
  timestamp := some "2025-01-01T00:00:00.000Z"
  message := some ⟨none, some "claude-sonnet-4", some ⟨some 10, some 20, none, none⟩⟩
  requestId := some "req_001"

/-- C2 (counterexample): the interaction-id policy is NOT uniform across
call sites.  On a line whose message identifier is missing, the hook's
`createUniqueHash` (count_tokens.js) returns the bare request id while
tokens.js's returns `null`; the parsed records differ accordingly.  This
refutes "a single uniformly-applied policy at every call site: composite
key only when both identifiers are present, null otherwise". -/
theorem C2_policy_not_uniform_counterexample :
    msgId rawOnlyRequestId = none ∧
    createUniqueHash_hook rawOnlyRequestId = some "req_001" ∧
    createUniqueHash_tokens rawOnlyRequestId = none ∧
    (parseUsageFromLine_hook (some rawOnlyRequestId)).map (·.interaction_id) =
      some (some "req_001") ∧
    (parseUsageFromLine_tokens (some rawOnlyRequestId)).map (·.interaction_id) =
      some none := by
  refine ⟨rfl, rfl, rfl, rfl, rfl⟩

/-- C2 (amended): the derivation is per-site.  tokens.js produces the
composite `` `${messageId}:${requestId}` `` exactly when both identifiers
are truthy and `null` otherwise; the hook's variant returns the request id
alone when truthy, else the message id when truthy, else `null`; and
part_004's parser attaches a non-null hash to every record it accepts,
identifiers present or not. -/
theorem C2_policy_per_site (data : RawData) (sha256hex : String → String)
    (line : Option RawData) (u : UsageRecord)
    (hpart4 : parseUsageFromLine_part004 sha256hex line = some u) :
    (strTruthy data.requestId = true → strTruthy (msgId data) = true →
      createUniqueHash_tokens data =
        some ((msgId data).getD "" ++ ":" ++ data.requestId.getD "")) ∧
    (¬(strTruthy data.requestId = true ∧ strTruthy (msgId data) = true) →
      createUniqueHash_tokens data = none) ∧
    (strTruthy data.requestId = true →
      createUniqueHash_hook data = data.requestId) ∧
    (strTruthy data.requestId = false → strTruthy (msgId data) = true →
      createUniqueHash_hook data = msgId data) ∧
    (strTruthy data.requestId = false → strTruthy (msgId data) = false →
      createUniqueHash_hook data = none) ∧
    u.interaction_id.isSome = true := by
  refine ⟨?_, ?_, ?_, ?_, ?_, ?_⟩
  · intro hr hm
    cases hrid : data.requestId with
    | none => rw [hrid] at hr; simp [strTruthy] at hr
    | some rid =>
      cases hmid : msgId data with
      | none => rw [hmid] at hm; simp [strTruthy] at hm
      | some mid =>
        have hr' : rid ≠ "" := by rw [hrid] at hr; simpa [strTruthy] using hr
        have hm' : mid ≠ "" := by rw [hmid] at hm; simpa [strTruthy] using hm
        simp [createUniqueHash_tokens, hrid, hmid, hr', hm']
  · intro hno
    cases hrid : data.requestId with
    | none => simp [createUniqueHash_tokens, hrid]
    | some rid =>
      cases hmid : msgId data with
      | none => simp [createUniqueHash_tokens, hrid, hmid]
      | some mid =>
        rw [hrid, hmid] at hno
        simp only [strTruthy, decide_eq_true_eq] at hno
        simp only [createUniqueHash_tokens, hrid, hmid]
        rw [if_neg]
        tauto
  · intro hr; simp [createUniqueHash_hook, hr]
  · intro hr hm; simp [createUniqueHash_hook, hr, hm]
  · intro hr hm; simp [createUniqueHash_hook, hr, hm]
  · cases line with
    | none => simp [parseUsageFromLine_part004] at hpart4
    | some d =>
      simp only [parseUsageFromLine_part004] at hpart4
      cases hts : d.timestamp with
      | none => rw [hts] at hpart4; simp at hpart4
      | some ts =>
        cases hmsg : d.message with
        | none => rw [hts, hmsg] at hpart4; simp at hpart4
        | some m =>
          rw [hts, hmsg] at hpart4
          by_cases hempty : ts = ""
          · simp [hempty] at hpart4
          · simp only [hempty, if_false] at hpart4
            cases husage : m.usage with
            | none => rw [husage] at hpart4; simp at hpart4
            | some uu =>
              rw [husage] at hpart4
              by_cases hnum : uu.input_tokens.isSome = true ∧ uu.output_tokens.isSome = true
              · have hb : buildUsageRecord d m uu
                    (some (sha256hex (ts ++ (msgId d).getD "" ++ d.requestId.getD ""))) = u := by
                  simpa [hnum.1, hnum.2] using hpart4
                rw [← hb]
                rfl
              · simp [hnum] at hpart4

/-- Witness for C2 (amended) at a line with both identifiers present. -/
theorem C2_policy_per_site_witness :
    (strTruthy (RawData.requestId ⟨some "t", some ⟨some "mid", none,
        some ⟨some 1, some 2, none, none⟩⟩, some "rid"⟩) = true →
      strTruthy (msgId ⟨some "t", some ⟨some "mid", none,
        some ⟨some 1, some 2, none, none⟩⟩, some "rid"⟩) = true →
      createUniqueHash_tokens ⟨some "t", some ⟨some "mid", none,
        some ⟨some 1, some 2, none, none⟩⟩, some "rid"⟩ =
        some ((msgId ⟨some "t", some ⟨some "mid", none,
          some ⟨some 1, some 2, none, none⟩⟩, some "rid"⟩).getD "" ++ ":" ++
          (RawData.requestId ⟨some "t", some ⟨some "mid", none,
            some ⟨some 1, some 2, none, none⟩⟩, some "rid"⟩).getD "")) ∧
    (¬(strTruthy (RawData.requestId ⟨some "t", some ⟨some "mid", none,
        some ⟨some 1, some 2, none, none⟩⟩, some "rid"⟩) = true ∧
        strTruthy (msgId ⟨some "t", some ⟨some "mid", none,
          some ⟨some 1, some 2, none, none⟩⟩, some "rid"⟩) = true) →
      createUniqueHash_tokens ⟨some "t", some ⟨some "mid", none,
        some ⟨some 1, some 2, none, none⟩⟩, some "rid"⟩ = none) ∧
    (strTruthy (RawData.requestId ⟨some "t", some ⟨some "mid", none,
        some ⟨some 1, some 2, none, none⟩⟩, some "rid"⟩) = true →
      createUniqueHash_hook ⟨some "t", some ⟨some "mid", none,
        some ⟨some 1, some 2, none, none⟩⟩, some "rid"⟩ =
        RawData.requestId ⟨some "t", some ⟨some "mid", none,
          some ⟨some 1, some 2, none, none⟩⟩, some "rid"⟩) ∧
    (strTruthy (RawData.requestId ⟨some "t", some ⟨some "mid", none,
        some ⟨some 1, some 2, none, none⟩⟩, some "rid"⟩) = false →
      strTruthy (msgId ⟨some "t", some ⟨some "mid", none,
        some ⟨some 1, some 2, none, none⟩⟩, some "rid"⟩) = true →
      createUniqueHash_hook ⟨some "t", some ⟨some "mid", none,
        some ⟨some 1, some 2, none, none⟩⟩, some "rid"⟩ =
        msgId ⟨some "t", some ⟨some "mid", none,
          some ⟨some 1, some 2, none, none⟩⟩, some "rid"⟩) ∧
    (strTruthy (RawData.requestId ⟨some "t", some ⟨some "mid", none,
        some ⟨some 1, some 2, none, none⟩⟩, some "rid"⟩) = false →
      strTruthy (msgId ⟨some "t", some ⟨some "mid", none,
        some ⟨some 1, some 2, none, none⟩⟩, some "rid"⟩) = false →
      createUniqueHash_hook ⟨some "t", some ⟨some "mid", none,
        some ⟨some 1, some 2, none, none⟩⟩, some "rid"⟩ = none) ∧
    (Option.isSome (UsageRecord.interaction_id
      ⟨"t", ⟨1, 2, 0, 0⟩, "unknown", some "h"⟩)) = true :=
  C2_policy_per_site ⟨some "t", some ⟨some "mid", none,
      some ⟨some 1, some 2, none, none⟩⟩, some "rid"⟩
    (fun _ => "h")
    (some ⟨some "t", some ⟨none, none, some ⟨some 1, some 2, none, none⟩⟩, none⟩)
    ⟨"t", ⟨1, 2, 0, 0⟩, "unknown", some "h"⟩ (by rfl)

/-- One failing attempt with retries remaining advances `uploadBatch` to
the next attempt. -/
theorem uploadBatchFrom_fail_step (len : Nat) (attempts : Nat → NetOutcome)
    (r : Nat) (hfail : attemptFails (attempts r) = true) (hlt : r < MAX_RETRIES) :
    uploadBatchFrom len attempts r = uploadBatchFrom len attempts (r + 1) := by
  rw [uploadBatchFrom]
  cases ho : attempts r with
  | response resp =>
    have h2 : is2xx resp.statusCode = false := by
      rw [ho] at hfail
      simpa [attemptFails] using hfail
    simp [h2, hlt]
  | netError => simp [hlt]

/-- A failing attempt with no retries left yields the fully-failed
result. -/
theorem uploadBatchFrom_fail_last (len : Nat) (attempts : Nat → NetOutcome)
    (r : Nat) (hfail : attemptFails (attempts r) = true) (hge : ¬ r < MAX_RETRIES) :
    uploadBatchFrom len attempts r = ⟨0, len⟩ := by
  rw [uploadBatchFrom]
  cases ho : attempts r with
  | response resp =>
    have h2 : is2xx resp.statusCode = false := by
      rw [ho] at hfail
      simpa [attemptFails] using hfail
    simp [h2, hge]
  | netError => simp [hge]

/-- When all four attempts (1 initial + `MAX_RETRIES` retries) fail,
`uploadBatch` returns `{processed: 0, failed: batch.length}`. -/
theorem uploadBatch_allFail (len : Nat) (attempts : Nat → NetOutcome)
    (h : ∀ k, attemptFails (attempts k) = true) :
    uploadBatch len attempts = ⟨0, len⟩ := by
  rw [uploadBatch,
    uploadBatchFrom_fail_step len attempts 0 (h 0) (by decide),
    uploadBatchFrom_fail_step len attempts 1 (h 1) (by decide),
    uploadBatchFrom_fail_step len attempts 2 (h 2) (by decide),
    uploadBatchFrom_fail_last len attempts 3 (h 3) (by decide)]

/-- An attempt environment in which every attempt receives an HTTP 409
conflict response. -/
def always409 : Nat → NetOutcome := fun _ => .response ⟨409, none⟩

/-- C7 (counterexample): the bulk Upload Executor does NOT treat a 409
"already delivered" response as success.  With every attempt answering
409, a 2-record batch is retried to exhaustion and reported fully failed
(`processed = 0, failed = 2`), refuting "the request is not retried and
the records are not counted as failed". -/
theorem C7_bulk_409_counterexample :
    uploadBatch 2 always409 = ⟨0, 2⟩ ∧ (uploadBatch 2 always409).failed ≠ 0 := by
  have h : uploadBatch 2 always409 = ⟨0, 2⟩ := by
    simp [uploadBatch, uploadBatchFrom, always409, is2xx, MAX_RETRIES]
  exact ⟨h, by rw [h]; decide⟩

/-- C7 (amended): only the single-entry delivery path treats 409 as
success.  `sendToAPI` resolves a 409 on its first attempt to the
`duplicate` success — regardless of what later attempts would return, so
no retry happens and nothing is counted failed — while the bulk
`uploadBatch` rejects a 409 like any other non-2xx status: an all-409
batch exhausts its retries and is reported fully failed. -/
theorem C7_409_single_entry_only (attempts : Nat → NetOutcome)
    (r : HttpResponse) (len : Nat)
    (h0 : attempts 0 = .response r) (h409 : r.statusCode = 409)
    (bulkAttempts : Nat → NetOutcome)
    (hbulk : ∀ k, bulkAttempts k = .response ⟨409, none⟩) :
    sendToAPI attempts = .ok .duplicate ∧
    uploadBatch len bulkAttempts = ⟨0, len⟩ := by
  constructor
  · rw [sendToAPI, sendToAPIFrom, h0]
    simp [is2xx, h409]
  · refine uploadBatch_allFail len bulkAttempts (fun k => ?_)
    rw [hbulk k]
    simp [attemptFails, is2xx]

/-- Witness for C7 (amended) at a concrete 409 environment. -/
theorem C7_409_single_entry_only_witness :
    sendToAPI always409 = .ok .duplicate ∧
    uploadBatch 5 always409 = ⟨0, 5⟩ :=
  C7_409_single_entry_only always409 ⟨409, none⟩ 5 rfl rfl always409 (fun _ => rfl)

/-- A migration environment in which the reset succeeds, one record is
scanned, and the bulk upload reports every record failed. -/
def migEnvPartialFailure : MigrationEnv where
  alreadyMigrated := false
  isNewAuth := false
  tokens := some ⟨"tok", "sec"⟩
  resetCall := .response 200 false
  scanEntries := [⟨"2025-01-01T00:00:00.000Z", ⟨1, 2, 0, 0⟩, "m", none⟩]
  upload := .result ⟨0, 5⟩

/-- C9 (counterexample): after a resync in which uploads failed
(`failed = 5 > 0`), the completion marker IS written — `runMigration`
marks completion right after `uploadShardedNdjson` returns, with no
subsequent version-check — refuting "after a resync run in which some
uploads failed, no completion marker is written". -/
theorem C9_marker_despite_failures_counterexample :
    runMigration migEnvPartialFailure =
      ⟨.success 0 5, true⟩ ∧
    (runMigration migEnvPartialFailure).markerWritten = true := by
  exact ⟨rfl, rfl⟩

/-- C9 (amended): the completion marker is written as soon as the resync
flow itself completes — after `uploadShardedNdjson` returns, regardless of
its `failed` count and without any confirming version-check — while a
resync aborted by a thrown error writes no marker and yields a structured
non-fatal failure, so the next invocation retries. -/
theorem C9_marker_on_flow_completion (env : MigrationEnv) (t : AuthTokens)
    (h1 : env.alreadyMigrated = false) (h2 : env.isNewAuth = false)
    (ht : env.tokens = some t)
    (hreset : resetUserData_migration env.resetCall = .ok)
    (hscan : env.scanEntries.isEmpty = false) :
    (∀ r, env.upload = .result r →
      runMigration env = ⟨.success r.processed r.failed, true⟩) ∧
    (∀ e, env.upload = .threw e →
      runMigration env = ⟨.failed e, false⟩) := by
  constructor
  · intro r hr
    simp [runMigration, h1, h2, ht, hreset, hscan, hr]
  · intro e he
    simp [runMigration, h1, h2, ht, hreset, hscan, he]

/-- Witness for C9 (amended) at the concrete partially-failed
environment. -/
theorem C9_marker_on_flow_completion_witness :
    (∀ r, migEnvPartialFailure.upload = .result r →
      runMigration migEnvPartialFailure = ⟨.success r.processed r.failed, true⟩) ∧
    (∀ e, migEnvPartialFailure.upload = .threw e →
      runMigration migEnvPartialFailure = ⟨.failed e, false⟩) :=
  C9_marker_on_flow_completion migEnvPartialFailure ⟨"tok", "sec"⟩ rfl rfl rfl
    (by decide) rfl

/-- C8: a version-check response `{needs_migration: false}` never leads to
a reset or resync call; a 404 response yields the `user_not_found`
version-check outcome without attempting a reset call; and any other
non-2xx response or network error yields the conservative non-migrating
outcome (the run is skipped as up to date), never a destructive resync. -/
theorem C8_conservative_reconciliation (env : SilentResetEnv) :
    (∀ s j vr, env.versionCheck = .response s j → is2xx s = true →
      j = some vr → vr.needs_migration = false →
      (performSilentReset env).resetCalled = false ∧
      (performSilentReset env).uploadCalled = false) ∧
    (∀ j, env.versionCheck = .response 404 j →
      checkVersionWithServer env.versionCheck = ⟨false, some "user_not_found"⟩ ∧
      (performSilentReset env).resetCalled = false ∧
      (performSilentReset env).uploadCalled = false) ∧
    (∀ s j, env.versionCheck = .response s j → is2xx s = false → s ≠ 404 →
      checkVersionWithServer env.versionCheck = ⟨false, some "version_check_failed"⟩ ∧
      (performSilentReset env).resetCalled = false ∧
      (performSilentReset env).uploadCalled = false) ∧
    (env.versionCheck = .netError →
      checkVersionWithServer env.versionCheck = ⟨false, some "version_check_error"⟩ ∧
      (performSilentReset env).resetCalled = false ∧
      (performSilentReset env).uploadCalled = false) ∧
    ((checkVersionWithServer env.versionCheck).needs_migration = false →
      ∀ t, env.tokens = some t →
      (performSilentReset env).outcome = .skipped "already_up_to_date") := by
  have noMig : (checkVersionWithServer env.versionCheck).needs_migration = false →
      (performSilentReset env).resetCalled = false ∧
      (performSilentReset env).uploadCalled = false := by
    intro h
    cases htok : env.tokens with
    | none => simp [performSilentReset, htok]
    | some t => simp [performSilentReset, htok, h]
  refine ⟨?_, ?_, ?_, ?_, ?_⟩
  · intro s j vr hvc h2 hj hnm
    refine noMig ?_
    rw [hvc, checkVersionWithServer.eq_def]
    simp [h2, hj, hnm]
  · intro j hvc
    have hcv : checkVersionWithServer env.versionCheck =
        ⟨false, some "user_not_found"⟩ := by
      rw [hvc, checkVersionWithServer.eq_def]
      simp [is2xx]
    exact ⟨hcv, noMig (by rw [hcv])⟩
  · intro s j hvc h2 h404
    have hcv : checkVersionWithServer env.versionCheck =
        ⟨false, some "version_check_failed"⟩ := by
      rw [hvc, checkVersionWithServer.eq_def]
      simp [h2, h404]
    exact ⟨hcv, noMig (by rw [hcv])⟩
  · intro hvc
    have hcv : checkVersionWithServer env.versionCheck =
        ⟨false, some "version_check_error"⟩ := by
      rw [hvc, checkVersionWithServer.eq_def]
    exact ⟨hcv, noMig (by rw [hcv])⟩
  · intro h t htok
    simp [performSilentReset, htok, h]

/-- Witness for C8 at a concrete 404 environment. -/
theorem C8_conservative_reconciliation_witness :
    (checkVersionWithServer (SilentResetEnv.versionCheck
      ⟨some ⟨"tok", "sec"⟩, .response 404 none, .response 200 false, [],
        .result ⟨3, 0⟩⟩) = ⟨false, some "user_not_found"⟩ ∧
    (performSilentReset ⟨some ⟨"tok", "sec"⟩, .response 404 none,
      .response 200 false, [], .result ⟨3, 0⟩⟩).resetCalled = false ∧
    (performSilentReset ⟨some ⟨"tok", "sec"⟩, .response 404 none,
      .response 200 false, [], .result ⟨3, 0⟩⟩).uploadCalled = false) ∧
    (performSilentReset ⟨some ⟨"tok", "sec"⟩, .response 404 none,
      .response 200 false, [], .result ⟨3, 0⟩⟩).outcome =
      .skipped "already_up_to_date" :=
  ⟨(C8_conservative_reconciliation ⟨some ⟨"tok", "sec"⟩, .response 404 none,
      .response 200 false, [], .result ⟨3, 0⟩⟩).2.1 none rfl,
   (C8_conservative_reconciliation ⟨some ⟨"tok", "sec"⟩, .response 404 none,
      .response 200 false, [], .result ⟨3, 0⟩⟩).2.2.2.2 (by decide) ⟨"tok", "sec"⟩ rfl⟩

/-- A raw log line with a valid usage block and neither upstream
identifier, so its parsed `interaction_id` is null. -/
def rawNoIds : RawData where
  timestamp := some "2025-01-02T00:00:00.000Z"
  message := some ⟨none, some "claude-sonnet-4", some ⟨some 3, some 4, none, none⟩⟩
  requestId := none

/-- C3 (counterexample): not every scan mode includes a null-id record it
encounters.  `rawNoIds` parses to a record with `interaction_id = null`,
yet part_006's latest-unsubmitted scan, fed exactly that line, returns
nothing — the record is dropped, refuting "any scan mode that encounters
the record includes it in its result". -/
theorem C3_null_id_dropped_counterexample :
    parseUsageFromLine_hook (some rawNoIds) =
      some ⟨"2025-01-02T00:00:00.000Z", ⟨3, 4, 0, 0⟩, "claude-sonnet-4", none⟩ ∧
    latestUnsubmittedLine_part006 [] [some rawNoIds] = none := by
  exact ⟨rfl, rfl⟩

/-- Null-id records pass through the full-history in-pass dedup untouched:
the null-id records in `scanJsonlFile`'s output are exactly the null-id
records the parser accepts, whatever the seen-set — and the ledger is
never consulted there. -/
theorem scanLines_keeps_null_ids (ls : List (Option RawData)) (seen : List String) :
    ((scanLines ls seen).1).filter (fun u => u.interaction_id.isNone) =
      (ls.filterMap parseUsageFromLine_tokens).filter
        (fun u => u.interaction_id.isNone) := by
  induction ls generalizing seen with
  | nil => rfl
  | cons l ls ih =>
    simp only [scanLines, List.filterMap_cons]
    cases hp : parseUsageFromLine_tokens l with
    | none => exact ih seen
    | some u =>
      cases hid : u.interaction_id with
      | some h =>
        by_cases hseen : h ∈ seen
        · simp only [hid, if_pos hseen]
          rw [ih seen, List.filter_cons_of_neg (by simp [hid])]
        · simp only [hid, if_neg hseen]
          rw [List.filter_cons_of_neg (by simp [hid]),
            List.filter_cons_of_neg (by simp [hid])]
          exact ih (h :: seen)
      | none =>
        simp only [hid]
        rw [List.filter_cons_of_pos (by simp [hid]),
          List.filter_cons_of_pos (by simp [hid])]
        rw [ih seen]

/-- C3 (amended): null-id records are never deduplicated in the
full-history scan (they all reach its output, and that scan never touches
the ledger), and count_tokens.js's latest scan returns a null-id record
the moment it reaches it; but part_006's latest-unsubmitted scan skips
every record whose `interaction_id` is null instead of forwarding it. -/
theorem C3_null_id_per_scan_mode (ls rest : List (Option RawData))
    (seen processed : List String) (tracking : List (String × String))
    (l : Option RawData) (u : UsageRecord)
    (hp : parseUsageFromLine_hook l = some u) (hid : u.interaction_id = none) :
    ((scanLines ls seen).1).filter (fun v => v.interaction_id.isNone) =
      (ls.filterMap parseUsageFromLine_tokens).filter
        (fun v => v.interaction_id.isNone) ∧
    latestLine_hook processed (l :: rest) = some u ∧
    latestUnsubmittedLine_part006 tracking (l :: rest) =
      latestUnsubmittedLine_part006 tracking rest := by
  refine ⟨scanLines_keeps_null_ids ls seen, ?_, ?_⟩
  · simp only [latestLine_hook, hp, hid]
  · simp only [latestUnsubmittedLine_part006, hp, hid]

/-- Witness for C3 (amended) at the concrete identifier-free line. -/
theorem C3_null_id_per_scan_mode_witness :
    ((scanLines [some rawNoIds] []).1).filter (fun v => v.interaction_id.isNone) =
      (([some rawNoIds].filterMap parseUsageFromLine_tokens)).filter
        (fun v => v.interaction_id.isNone) ∧
    latestLine_hook [] [some rawNoIds] =
      some ⟨"2025-01-02T00:00:00.000Z", ⟨3, 4, 0, 0⟩, "claude-sonnet-4", none⟩ ∧
    latestUnsubmittedLine_part006 [] [some rawNoIds] =
      latestUnsubmittedLine_part006 [] [] :=
  C3_null_id_per_scan_mode [some rawNoIds] [] [] [] [] (some rawNoIds)
    ⟨"2025-01-02T00:00:00.000Z", ⟨3, 4, 0, 0⟩, "claude-sonnet-4", none⟩ rfl rfl

/-- The windowed dispatch produces exactly one result per batch, in batch
order: it equals the per-batch map with absolute indices. -/
theorem runBatchesAux_eq (env : Nat → Nat → NetOutcome) :
    ∀ (n : Nat) (bs : List PlannedBatch), bs.length ≤ n → ∀ (s : Nat),
      runBatchesAux env s bs =
        bs.mapIdx (fun j b => uploadBatch b.batch.length (env (s + j))) := by
  intro n
  induction n with
  | zero =>
    intro bs h s
    rw [List.length_eq_zero.mp (Nat.le_zero.mp h)]
    simp [runBatchesAux]
  | succ n ih =>
    intro bs h s
    match bs with
    | [] => simp [runBatchesAux]
    | b :: bs' =>
      rw [runBatchesAux]
      by_cases hle : (b :: bs').length ≤ MAX_CONCURRENT
      · rw [List.take_of_length_le hle, List.drop_eq_nil_of_le hle]
        simp [runBatchesAux]
      · have hge : MAX_CONCURRENT ≤ (b :: bs').length := le_of_not_le hle
        have hdroplen : ((b :: bs').drop MAX_CONCURRENT).length ≤ n := by
          rw [List.length_drop]
          simp only [List.length_cons] at h ⊢
          simp only [MAX_CONCURRENT] at hge ⊢
          omega
        rw [ih _ hdroplen (s + MAX_CONCURRENT)]
        conv_rhs => rw [← List.take_append_drop MAX_CONCURRENT (b :: bs')]
        rw [List.mapIdx_append, List.length_take, Nat.min_eq_left hge]
        have hfg : (fun j (w : PlannedBatch) =>
              uploadBatch w.batch.length (env (s + MAX_CONCURRENT + j))) =
            (fun i (w : PlannedBatch) =>
              uploadBatch w.batch.length (env (s + (i + MAX_CONCURRENT)))) := by
          funext j w
          have hj : s + MAX_CONCURRENT + j = s + (j + MAX_CONCURRENT) := by omega
          rw [hj]
        rw [hfg]

/-- C6: a batch whose every attempt fails (1 initial + 3 retries, with
backoff delays starting at 1000 ms and doubling each attempt) is reported
as `{processed: 0, failed: batch.length}`, and the run still produces one
result per batch — the remaining batches are processed rather than the
run aborting. -/
theorem C6_exhausted_batch_fully_failed (env : Nat → Nat → NetOutcome)
    (batches : List PlannedBatch) (i : Nat) (b : PlannedBatch)
    (hb : batches[i]? = some b)
    (hfail : ∀ k, attemptFails (env i k) = true) :
    (runBatches env batches).length = batches.length ∧
    (runBatches env batches)[i]? = some ⟨0, b.batch.length⟩ ∧
    retryDelayMs 0 = 1000 ∧ (∀ k, retryDelayMs (k + 1) = 2 * retryDelayMs k) := by
  have heq := runBatchesAux_eq env batches.length batches le_rfl 0
  rw [runBatches, heq]
  refine ⟨List.length_mapIdx, ?_, rfl, ?_⟩
  · rw [List.getElem?_mapIdx, hb, Option.map_some']
    rw [Nat.zero_add, uploadBatch_allFail _ _ hfail]
  · intro k
    simp only [retryDelayMs, Nat.pow_succ]
    ring

/-- A concrete two-record single-date batch. -/
def demoBatch : PlannedBatch where
  batch := [⟨some "2024-01-01T00:00:00.000Z", "a"⟩,
            ⟨some "2024-01-01T00:00:01.000Z", "b"⟩]
  batchNumber := 1
  dates := ["2024-01-01"]

/-- Witness for C6: one batch whose every attempt is a network error. -/
theorem C6_exhausted_batch_fully_failed_witness :
    (runBatches (fun _ _ => .netError) [demoBatch]).length = [demoBatch].length ∧
    (runBatches (fun _ _ => .netError) [demoBatch])[0]? =
      some ⟨0, demoBatch.batch.length⟩ ∧
    retryDelayMs 0 = 1000 ∧ (∀ k, retryDelayMs (k + 1) = 2 * retryDelayMs k) :=
  C6_exhausted_batch_fully_failed (fun _ _ => .netError) [demoBatch] 0 demoBatch
    rfl (fun _ => rfl)

/-- Flattening the planner's output recovers the current batch followed by
every date group, in order: no record is dropped or duplicated. -/
theorem planBatchesAux_flatten (groups : List (String × List Entry)) :
    ∀ (cur : List Entry) (num : Nat),
      (planBatchesAux groups cur num).flatMap (fun b => b.batch) =
        cur ++ groups.flatMap (fun g => g.2) := by
  induction groups with
  | nil =>
    intro cur num
    simp only [planBatchesAux]
    by_cases hcur : cur.isEmpty
    · rw [if_pos hcur, List.isEmpty_iff.mp hcur]
      rfl
    · rw [if_neg hcur]
      simp
  | cons g rest ih =>
    intro cur num
    obtain ⟨d, des⟩ := g
    simp only [planBatchesAux, List.flatMap_cons]
    by_cases hflush : 0 < cur.length ∧ BATCH_SIZE < cur.length + des.length
    · rw [if_pos hflush]
      by_cases hbig : BATCH_SIZE ≤ des.length
      · rw [if_pos hbig]
        simp only [List.flatMap_cons, ih [] _, ih]
        simp
      · rw [if_neg hbig]
        simp only [List.flatMap_cons, ih des _]
    · rw [if_neg hflush]
      by_cases hfull : BATCH_SIZE ≤ (cur ++ des).length
      · simp only [hfull, if_true, List.flatMap_cons, ih [] _]
        simp
      · simp only [hfull, if_false, ih (cur ++ des) _]
        simp

/-- Membership in the first-occurrence dedup: an element appears exactly
when it occurs in the source and is not already seen. -/
theorem mem_firstDedupAux (a : String) :
    ∀ (l : List String) (seen : List String),
      a ∈ firstDedupAux seen l ↔ a ∈ l ∧ a ∉ seen := by
  intro l
  induction l with
  | nil => intro seen; simp [firstDedupAux]
  | cons d ds ih =>
    intro seen
    simp only [firstDedupAux]
    by_cases hd : d ∈ seen
    · rw [if_pos hd, ih]
      constructor
      · rintro ⟨hm, hs⟩
        exact ⟨List.mem_cons_of_mem _ hm, hs⟩
      · rintro ⟨hm, hs⟩
        rcases List.mem_cons.mp hm with rfl | hm
        · exact absurd hd hs
        · exact ⟨hm, hs⟩
    · rw [if_neg hd]
      simp only [List.mem_cons, ih]
      constructor
      · rintro (rfl | ⟨hm, hs⟩)
        · exact ⟨Or.inl rfl, hd⟩
        · exact ⟨Or.inr hm, fun hseen => hs (Or.inr hseen)⟩
      · rintro ⟨rfl | hm, hs⟩
        · exact Or.inl rfl
        · by_cases had : a = d
          · exact Or.inl had
          · exact Or.inr ⟨hm, fun hseen => hseen.elim had hs⟩

/-- The first-occurrence dedup has no duplicates. -/
theorem nodup_firstDedupAux :
    ∀ (l : List String) (seen : List String), (firstDedupAux seen l).Nodup := by
  intro l
  induction l with
  | nil => intro seen; simp [firstDedupAux]
  | cons d ds ih =>
    intro seen
    simp only [firstDedupAux]
    by_cases hd : d ∈ seen
    · rw [if_pos hd]; exact ih seen
    · rw [if_neg hd]
      refine List.nodup_cons.mpr ⟨?_, ih (d :: seen)⟩
      intro hmem
      exact ((mem_firstDedupAux d ds (d :: seen)).mp hmem).2 (List.mem_cons_self d _)

/-- When every element is already seen, the dedup is empty. -/
theorem firstDedupAux_eq_nil (l seen : List String)
    (h : ∀ x ∈ l, x ∈ seen) : firstDedupAux seen l = [] := by
  induction l with
  | nil => rfl
  | cons d ds ih =>
    simp only [firstDedupAux, if_pos (h d (List.mem_cons_self d ds))]
    exact ih (fun x hx => h x (List.mem_cons_of_mem _ hx))

/-- The dedup of a constant list is `[]` or the singleton. -/
theorem firstDedup_const (l : List String) (d : String)
    (h : ∀ x ∈ l, x = d) : firstDedup l = [] ∨ firstDedup l = [d] := by
  cases l with
  | nil => exact Or.inl rfl
  | cons x xs =>
    right
    have hx : x = d := h x (List.mem_cons_self x xs)
    subst hx
    simp only [firstDedup, firstDedupAux, List.not_mem_nil, if_neg, if_false]
    rw [firstDedupAux_eq_nil xs [x]
      (fun y hy => by rw [h y (List.mem_cons_of_mem _ hy)]; exact List.mem_cons_self x [])]

/-- A batch holding one date group only covers at most one date. -/
theorem coveredDates_const (des : List Entry) (d : String)
    (h : ∀ e ∈ des, entryDate e = d) : (coveredDates des).length ≤ 1 := by
  rcases firstDedup_const (des.map entryDate) d
      (fun x hx => by
        obtain ⟨e, he, rfl⟩ := List.mem_map.mp hx
        exact h e he) with hc | hc
  · rw [coveredDates, hc]
    decide
  · rw [coveredDates, hc]
    simp

/-- Every planned batch either covers a single date or respects the
size ceiling: only one date's own records can make a batch oversized,
and a batch mixing several dates is always within the ceiling. -/
theorem planBatchesAux_mixing (groups : List (String × List Entry)) :
    ∀ (cur : List Entry) (num : Nat),
      (∀ p ∈ groups, ∀ e ∈ p.2, entryDate e = p.1) →
      cur.length < BATCH_SIZE →
      ∀ b ∈ planBatchesAux groups cur num,
        b.dates.length ≤ 1 ∨ b.batch.length ≤ BATCH_SIZE := by
  induction groups with
  | nil =>
    intro cur num _ hcur b hb
    simp only [planBatchesAux] at hb
    by_cases hc : cur.isEmpty
    · rw [if_pos hc] at hb
      simp at hb
    · rw [if_neg hc] at hb
      rw [List.mem_singleton.mp hb]
      exact Or.inr (le_of_lt hcur)
  | cons g rest ih =>
    intro cur num hwf hcur b hb
    obtain ⟨d, des⟩ := g
    have hwfd : ∀ e ∈ des, entryDate e = d :=
      fun e he => hwf (d, des) (List.mem_cons_self _ _) e he
    have hwfrest : ∀ p ∈ rest, ∀ e ∈ p.2, entryDate e = p.1 :=
      fun p hp => hwf p (List.mem_cons_of_mem _ hp)
    simp only [planBatchesAux] at hb
    by_cases hflush : 0 < cur.length ∧ BATCH_SIZE < cur.length + des.length
    · rw [if_pos hflush] at hb
      rcases List.mem_cons.mp hb with rfl | hb
      · exact Or.inr (le_of_lt hcur)
      · by_cases hbig : BATCH_SIZE ≤ des.length
        · rw [if_pos hbig] at hb
          rcases List.mem_cons.mp hb with rfl | hb
          · exact Or.inl (coveredDates_const des d hwfd)
          · exact ih [] (num + 2) hwfrest (by decide) b hb
        · rw [if_neg hbig] at hb
          exact ih des (num + 1) hwfrest (lt_of_not_le hbig) b hb
    · rw [if_neg hflush] at hb
      by_cases hfull : BATCH_SIZE ≤ (cur ++ des).length
      · simp only [hfull, if_true] at hb
        rcases List.mem_cons.mp hb with rfl | hb
        · by_cases hnil : cur.length = 0
          · left
            rw [List.length_eq_zero.mp hnil]
            exact coveredDates_const des d hwfd
          · right
            rw [List.length_append]
            rcases not_and_or.mp hflush with h0 | hle
            · exact absurd (Nat.pos_of_ne_zero hnil) h0
            · exact le_of_not_lt hle
        · exact ih [] (num + 1) hwfrest (by decide) b hb
      · simp only [hfull, if_false] at hb
        refine ih (cur ++ des) num hwfrest ?_ b hb
        rw [List.length_append] at hfull ⊢
        exact lt_of_not_le hfull

/-- Grouping a list by a complete, duplicate-free list of date keys and
re-concatenating is a permutation of the original list. -/
theorem flatMap_filter_perm (ds : List String) :
    ∀ (l : List Entry), ds.Nodup → (∀ e ∈ l, entryDate e ∈ ds) →
      (ds.flatMap (fun d => l.filter (fun e => entryDate e = d))).Perm l := by
  induction ds with
  | nil =>
    intro l _ hall
    cases l with
    | nil => rfl
    | cons e es => exact absurd (hall e (List.mem_cons_self _ _)) (List.not_mem_nil _)
  | cons d ds ih =>
    intro l hnd hall
    rw [List.flatMap_cons]
    have hdmem : d ∉ ds := (List.nodup_cons.mp hnd).1
    have hstep : ds.flatMap (fun d' => l.filter (fun e => entryDate e = d')) =
        ds.flatMap (fun d' =>
          (l.filter (fun e => !(entryDate e = d))).filter
            (fun e => entryDate e = d')) := by
      rw [List.flatMap, List.flatMap]
      congr 1
      refine List.map_congr_left (fun d' hd' => ?_)
      rw [List.filter_filter]
      refine (List.filter_congr (fun e _ => ?_)).symm
      by_cases he : entryDate e = d'
      · have hne : entryDate e ≠ d := by
          rw [he]
          rintro rfl
          exact hdmem hd'
        have hd'd : ¬ d' = d := fun hh => hdmem (hh ▸ hd')
        simp [he, hne, hd'd]
      · simp [he]
    rw [hstep]
    have hsub : (List.filter (fun e => !(entryDate e = d)) l).Perm
        (List.filter (fun e => !(entryDate e = d)) l) := List.Perm.refl _
    have hih := ih (l.filter (fun e => !(entryDate e = d)))
      (List.nodup_cons.mp hnd).2
      (fun e he => by
        have hmem := List.mem_filter.mp he
        have hdate := hall e hmem.1
        rcases List.mem_cons.mp hdate with heq | hds
        · exfalso
          have := hmem.2
          rw [heq] at this
          simp at this
        · exact hds)
    exact List.Perm.trans (List.Perm.append_left _ hih) (List.filter_append_perm _ l)

/-- The JS string comparison is reflexive. -/
theorem charListLe_refl : ∀ (as : List Char), charListLe as as = true := by
  intro as
  induction as with
  | nil => rfl
  | cons a as ih => simp [charListLe, ih]

/-- The JS string comparison is transitive. -/
theorem charListLe_trans :
    ∀ (as bs cs : List Char), charListLe as bs = true →
      charListLe bs cs = true → charListLe as cs = true := by
  intro as
  induction as with
  | nil => intro bs cs _ _; rfl
  | cons a as ih =>
    intro bs cs hab hbc
    cases bs with
    | nil => simp [charListLe] at hab
    | cons b bs =>
      cases cs with
      | nil => simp [charListLe] at hbc
      | cons c cs =>
        simp only [charListLe] at hab hbc ⊢
        by_cases hac : a.toNat < c.toNat
        · simp [hac]
        · by_cases hca : c.toNat < a.toNat
          · exfalso
            by_cases hab1 : a.toNat < b.toNat
            · by_cases hbc1 : b.toNat < c.toNat
              · omega
              · by_cases hcb : c.toNat < b.toNat
                · rw [if_neg hbc1, if_pos hcb] at hbc
                  simp at hbc
                · omega
            · by_cases hba : b.toNat < a.toNat
              · rw [if_neg hab1, if_pos hba] at hab
                simp at hab
              · by_cases hbc1 : b.toNat < c.toNat
                · omega
                · by_cases hcb : c.toNat < b.toNat
                  · rw [if_neg hbc1, if_pos hcb] at hbc
                    simp at hbc
                  · omega
          · rw [if_neg hac, if_neg hca]
            by_cases hab1 : a.toNat < b.toNat
            · by_cases hbc1 : b.toNat < c.toNat
              · omega
              · by_cases hcb : c.toNat < b.toNat
                · rw [if_neg hbc1, if_pos hcb] at hbc
                  simp at hbc
                · omega
            · by_cases hba : b.toNat < a.toNat
              · rw [if_neg hab1, if_pos hba] at hab
                simp at hab
              · rw [if_neg hab1, if_neg hba] at hab
                by_cases hbc1 : b.toNat < c.toNat
                · omega
                · by_cases hcb : c.toNat < b.toNat
                  · omega
                  · rw [if_neg hbc1, if_neg hcb] at hbc
                    exact ih bs cs hab hbc

/-- The JS string comparison is total. -/
theorem charListLe_total :
    ∀ (as bs : List Char), charListLe as bs = true ∨ charListLe bs as = true := by
  intro as
  induction as with
  | nil => intro bs; exact Or.inl rfl
  | cons a as ih =>
    intro bs
    cases bs with
    | nil => exact Or.inr rfl
    | cons b bs =>
      simp only [charListLe]
      by_cases hab : a.toNat < b.toNat
      · left
        simp [hab]
      · by_cases hba : b.toNat < a.toNat
        · right
          simp [hba]
        · rw [if_neg hab, if_neg hba, if_neg hba, if_neg hab]
          exact ih bs

instance : IsTrans String jsStrLe :=
  ⟨fun a b c hab hbc => charListLe_trans a.data b.data c.data hab hbc⟩

instance : IsTotal String jsStrLe :=
  ⟨fun a b => charListLe_total a.data b.data⟩

instance : IsRefl String jsStrLe := ⟨fun a => charListLe_refl a.data⟩

/-- Concatenating per-key blocks of constant value along a sorted key list
is sorted. -/
theorem sorted_flatMap_const (ds : List String) (f : String → List String)
    (hconst : ∀ d, ∀ x ∈ f d, x = d) (hsort : List.Sorted jsStrLe ds) :
    List.Sorted jsStrLe (ds.flatMap f) := by
  rw [List.flatMap_def, List.Sorted, List.pairwise_flatten]
  constructor
  · intro l' hl'
    obtain ⟨d, _, rfl⟩ := List.mem_map.mp hl'
    rw [List.eq_replicate_of_mem (hconst d)]
    exact List.pairwise_replicate.mpr (Or.inr (charListLe_refl d.data))
  · rw [List.pairwise_map]
    refine hsort.imp ?_
    intro d₁ d₂ hle x hx y hy
    rw [hconst d₁ x hx, hconst d₂ y hy]
    exact hle

/-- The distinct sorted dates of the timestamped entries cover every
entry's date and carry no duplicates. -/
theorem sortedDates_spec (valid : List Entry) :
    (sortedDates valid).Nodup ∧
    (∀ e ∈ valid, entryDate e ∈ sortedDates valid) ∧
    List.Sorted jsStrLe (sortedDates valid) := by
  refine ⟨?_, ?_, List.sorted_insertionSort jsStrLe _⟩
  · exact (List.perm_insertionSort jsStrLe _).nodup_iff.mpr
      (nodup_firstDedupAux _ [])
  · intro e he
    rw [sortedDates, List.mem_insertionSort, firstDedup, mem_firstDedupAux]
    exact ⟨List.mem_map.mpr ⟨e, he, rfl⟩, List.not_mem_nil _⟩

/-- The record content of the planner's output is exactly the valid
entries grouped by sorted date. -/
theorem planBatches_flatten (entries : List Entry) :
    ((planBatches entries).flatMap (fun b => b.batch)).Perm
      (entries.filter hasTimestamp) := by
  rw [planBatches, planBatchesAux_flatten, List.nil_append, entriesByDate]
  rw [List.flatMap_map]
  exact flatMap_filter_perm (sortedDates (entries.filter hasTimestamp))
    (entries.filter hasTimestamp)
    (sortedDates_spec _).1
    (sortedDates_spec _).2.1

/-- C5 (amended): the Batch Planner visits calendar dates (first 10
characters of the timestamp) in ascending order — the concatenated output
is date-sorted — and the sum of the output batch sizes equals the input
record count; however, a batch may bundle several complete dates below the
5000 ceiling: a batch covering two or more distinct dates is always within
the ceiling, and only a single date's own records can exceed it. -/
theorem C5_planner_properties (entries : List Entry)
    (hts : ∀ e ∈ entries, hasTimestamp e = true) :
    ((planBatches entries).map (fun b => b.batch.length)).sum = entries.length ∧
    List.Sorted jsStrLe
      (((planBatches entries).flatMap (fun b => b.batch)).map entryDate) ∧
    (∀ b ∈ planBatches entries, b.dates.length ≤ 1 ∨ b.batch.length ≤ BATCH_SIZE) := by
  refine ⟨?_, ?_, ?_⟩
  · have hlen := (planBatches_flatten entries).length_eq
    rw [List.length_flatMap] at hlen
    rw [List.filter_eq_self.mpr hts] at hlen
    rw [← hlen]
    congr 1
  · rw [planBatches, planBatchesAux_flatten, List.nil_append, entriesByDate]
    rw [List.flatMap_map, List.map_flatMap]
    refine sorted_flatMap_const _ _ ?_ (sortedDates_spec _).2.2
    intro d x hx
    obtain ⟨e, he, rfl⟩ := List.mem_map.mp hx
    exact of_decide_eq_true (List.mem_filter.mp he).2
  · intro b hb
    refine planBatchesAux_mixing (entriesByDate entries) [] 1 ?_ (by decide) b hb
    intro p hp e he
    rw [entriesByDate] at hp
    obtain ⟨d, _, rfl⟩ := List.mem_map.mp hp
    exact of_decide_eq_true (List.mem_filter.mp he).2

/-- Two one-record date groups for the planner counterexample. -/
def entryJan1 : Entry := ⟨some "2024-01-01T10:00:00.000Z", "r1"⟩

/-- Second planner counterexample record, on the following date. -/
def entryJan2 : Entry := ⟨some "2024-01-02T11:00:00.000Z", "r2"⟩

/-- C5 (counterexample): nothing forces mixing, yet the planner puts two
records of two distinct dates into one batch — its covered date set has
two elements while its size, 2, is far below the 5000 ceiling.  This
refutes "no output batch contains records of two distinct dates unless
forced by the 5000-record ceiling". -/
theorem C5_mixed_dates_counterexample :
    planBatches [entryJan1, entryJan2] =
      [⟨[entryJan1, entryJan2], 1, ["2024-01-01", "2024-01-02"]⟩] ∧
    ("2024-01-01" : String) ≠ "2024-01-02" ∧
    (2 : Nat) < BATCH_SIZE := by
  refine ⟨rfl, by decide, by decide⟩

/-- Witness for C5 (amended) at the concrete two-date input. -/
theorem C5_planner_properties_witness :
    ((planBatches [entryJan1, entryJan2]).map (fun b => b.batch.length)).sum =
      [entryJan1, entryJan2].length ∧
    List.Sorted jsStrLe
      (((planBatches [entryJan1, entryJan2]).flatMap
        (fun b => b.batch)).map entryDate) ∧
    (∀ b ∈ planBatches [entryJan1, entryJan2],
      b.dates.length ≤ 1 ∨ b.batch.length ≤ BATCH_SIZE) :=
  C5_planner_properties [entryJan1, entryJan2] (by decide)

end Leaderboard
